import Mathlib

/-
Verification development for the react-data-table component
(thanhbinhqs/react-data-table-com).

The repository wraps @tanstack/react-table: the component files own the
filter-panel handlers (handleApplyFilters, handleClearFilters), the row id
derivation (getRowId), the synthetic row-number cell, the forced column
pinning override, the auto-fit width clamp and the AdvancedFilter activity
predicate.  Those are embedded below directly from the source.  The row
models and the selection toggles live in the @tanstack/react-table
dependency, which is not part of the repository sources; those parts are
modelled from the specification, and each such definition is marked
`Modelled from the spec:` in its doc comment.

Machine integers do not matter here (widths and counts are small JS
numbers used integrally), so numbers are embedded as Int/Nat.
-/

namespace DataTableCom

/-- A JavaScript value as it can appear in the `filterValues` record of the
DataTable components (`Record<string, any>`): a string from a text input, a
number, a plain object (such as an AdvancedFilter `FilterValue`), or
`undefined`. -/
inductive JSValue where
  | str (s : String)
  | num (n : Int)
  | obj
  | undef
  deriving DecidableEq

/-- JavaScript truthiness of a `JSValue`: empty string, `0` and `undefined`
are falsy; every object is truthy. -/
def jsTruthy : JSValue → Bool
  | .str s => s != ""
  | .num n => n != 0
  | .obj => true
  | .undef => false

/-- JavaScript `value.toString()` for a `JSValue` (an object stringifies to
"[object Object]"). -/
def jsToString : JSValue → String
  | .str s => s
  | .num n => toString n
  | .obj => "[object Object]"
  | .undef => "undefined"

/-- JS `String.prototype.trim`: drops leading and trailing whitespace
(written out over the character list so that it evaluates). -/
def jsTrim (s : String) : String :=
  String.mk
    (((s.data.dropWhile Char.isWhitespace).reverse.dropWhile
        Char.isWhitespace).reverse)

/-- The predicate `value && value.toString().trim() !== ''` used by
`handleApplyFilters` (src/src/components/DataTable.tsx lines 101-108 and the
unnamed DataTable variants) to keep a filter entry. -/
def jsKept (v : JSValue) : Bool :=
  jsTruthy v && jsTrim (jsToString v) != ""

/-- Embeds the body of `handleApplyFilters`: from the filter-panel values it
derives the column-filter list, keeping exactly the entries whose value is
truthy with a non-blank string form.

Source: `Object.entries(filterValues).filter(([_, value]) => value &&
value.toString().trim() !== '').map(([id, value]) => ({ id, value }))`. -/
def deriveFilters (filterValues : List (String × JSValue)) :
    List (String × JSValue) :=
  filterValues.filter (fun p => jsKept p.2)

/-- The composite view state held by the DataTable component: the `useState`
hooks `sorting`, `columnFilters`, `columnVisibility`, `columnPinning` (left
and right lists), `rowSelection` (ids mapped to true), `globalFilter`,
`columnSizing` and `filterValues`. -/
structure TableState where
  sorting : List (String × Bool)
  columnFilters : List (String × JSValue)
  columnVisibility : List (String × Bool)
  pinLeft : List String
  pinRight : List String
  rowSelection : List String
  globalFilter : String
  columnSizing : List (String × Int)
  filterValues : List (String × JSValue)
  deriving DecidableEq

/-- Embeds `handleApplyFilters` as a transition on the composite state: it
recomputes `columnFilters` from the current `filterValues`
(`setColumnFilters(filters)`) and touches nothing else. -/
def handleApplyFilters (s : TableState) : TableState :=
  { s with columnFilters := deriveFilters s.filterValues }

/-- Embeds `handleClearFilters` (src/src/components/DataTable.tsx lines
110-115 and the unnamed variants): `setFilterValues(\x7b\x7d)`,
`setColumnFilters([])`, `setGlobalFilter('')`; no other state hook is
written. -/
def handleClearFilters (s : TableState) : TableState :=
  { s with filterValues := [], columnFilters := [], globalFilter := "" }

/-- A data row as the pipeline sees it: its derived string identity and one
integral column value (enough to express filtering and sorting of rows). -/
structure RowR where
  id : String
  val : Int
  deriving DecidableEq

/-- A row-match predicate family: given the active column filters and the
global search term of a state, decides whether a row passes.  The concrete
per-kind match functions are TanStack filterFns, external to the repository;
the claims under study quantify over every filter state, so the predicate is
kept as a parameter. -/
abbrev MatchFn := List (String × JSValue) → String → RowR → Bool

/-- Modelled from the spec: `getFilteredRowModel().rows`, the library row
model that keeps, in dataset order, exactly the rows passing the active
column filters and the global search (the library code is a dependency, not
part of src/). -/
def filteredRowModel (matchFn : MatchFn) (data : List RowR)
    (s : TableState) : List RowR :=
  data.filter (fun r => matchFn s.columnFilters s.globalFilter r)

/-- Embeds `selectedRowsData` (src/unnamed/part_002 lines 421-423 and
part_003 lines 571-573):
`table.getFilteredSelectedRowModel().rows.map(row => row.original)`.
The library's filtered-selected row model — the filtered rows whose id is in
the selection set — is modelled from the spec. -/
def selectedRowsData (matchFn : MatchFn) (data : List RowR)
    (s : TableState) : List RowR :=
  (filteredRowModel matchFn data s).filter
    (fun r => s.rowSelection.contains r.id)

/-- Modelled from the spec: the library's `getIsAllRowsSelected` — true when
there are filtered rows, the selection record is non-empty, and no filtered
row is unselected. -/
def getIsAllRowsSelected (filteredIds sel : List String) : Bool :=
  !filteredIds.isEmpty && !sel.isEmpty &&
    filteredIds.all (fun i => sel.contains i)

/-- Selection-record update that marks every given id selected
(`rowSelection[row.id] = true` over the filtered flat rows). -/
def selectIds (sel ids : List String) : List String :=
  sel ++ ids.filter (fun i => !sel.contains i)

/-- Selection-record update that deletes every given id
(`delete rowSelection[row.id]` over the filtered flat rows). -/
def deselectIds (sel ids : List String) : List String :=
  sel.filter (fun i => !ids.contains i)

/-- Modelled from the spec: the library's `toggleAllRowsSelected()` invoked
by the Select All button (src/unnamed/part_002 lines 536-548, part_003 lines
650-657).  It walks the *filtered* flat rows only: with no argument it
selects them all unless they are already all selected, in which case it
deletes exactly them from the selection record. -/
def toggleAllRowsSelected (filteredIds sel : List String) : List String :=
  if getIsAllRowsSelected filteredIds sel then deselectIds sel filteredIds
  else selectIds sel filteredIds

/-- The Select All button transition at the state level: toggles over the
ids of the currently filtered row model. -/
def stToggleAllRowsSelected (matchFn : MatchFn) (data : List RowR)
    (s : TableState) : TableState :=
  let ids := (filteredRowModel matchFn data s).map (fun r => r.id)
  { s with rowSelection := toggleAllRowsSelected ids s.rowSelection }

/-- Embeds the forced left-pinned synthetic column list
(src/unnamed/part_002 lines 391-393): `selectable ? ['select', 'rowNumber']
: ['rowNumber']`. -/
def leftPinnedColumns (selectable : Bool) : List String :=
  if selectable then ["select", "rowNumber"] else ["rowNumber"]

/-- Embeds the forced right-pinned synthetic column list
(src/unnamed/part_002 lines 395-397): `rowActions.length > 0 ?
['rowActions'] : []`. -/
def rightPinnedColumns (hasRowActions : Bool) : List String :=
  if hasRowActions then ["rowActions"] else []

/-- Embeds the `columnPinning` state override, left side
(src/unnamed/part_002 lines 399-409): `[...leftPinnedColumns,
...(columnPinning.left || []).filter(id => !leftPinnedColumns.includes(id))]`. -/
def effectiveLeft (selectable : Bool) (userLeft : List String) :
    List String :=
  leftPinnedColumns selectable ++
    userLeft.filter (fun i => !(leftPinnedColumns selectable).contains i)

/-- Embeds the `columnPinning` state override, right side
(src/unnamed/part_002 lines 405-408): `[...rightPinnedColumns,
...(columnPinning.right || []).filter(id =>
!rightPinnedColumns.includes(id))]`. -/
def effectiveRight (hasRowActions : Bool) (userRight : List String) :
    List String :=
  rightPinnedColumns hasRowActions ++
    userRight.filter (fun i => !(rightPinnedColumns hasRowActions).contains i)

/-- User pinning state: the `columnPinning` React state (left and right id
lists) together with the `columnVisibility` record. -/
structure PinState where
  userLeft : List String
  userRight : List String
  visibility : List (String × Bool)
  deriving DecidableEq

/-- The user operations the pinning claim ranges over: pin a column left or
right, unpin it, hide or show it, and Unpin All
(`table.resetColumnPinning()`). -/
inductive PinOp where
  | pinL (id : String)
  | pinR (id : String)
  | unpin (id : String)
  | setHidden (id : String) (hidden : Bool)
  | unpinAll
  deriving DecidableEq

/-- Modelled from the spec: the effect of the column-settings panel buttons
on the user pinning state.  `column.pin(side)` removes the id from both
lists and appends it to the chosen side, `column.pin(false)` removes it from
both, `resetColumnPinning()` resets to the initial empty pinning state, and
visibility toggles leave pinning alone. -/
def applyPinOp (s : PinState) : PinOp → PinState
  | .pinL i =>
      { s with userLeft := (s.userLeft.filter (fun j => j != i)) ++ [i],
               userRight := s.userRight.filter (fun j => j != i) }
  | .pinR i =>
      { s with userLeft := s.userLeft.filter (fun j => j != i),
               userRight := (s.userRight.filter (fun j => j != i)) ++ [i] }
  | .unpin i =>
      { s with userLeft := s.userLeft.filter (fun j => j != i),
               userRight := s.userRight.filter (fun j => j != i) }
  | .setHidden i b =>
      { s with visibility := (i, !b) ::
          s.visibility.filter (fun p => p.1 != i) }
  | .unpinAll => { s with userLeft := [], userRight := [] }

/-- Folds a sequence of user operations over a pinning state. -/
def applyPinOps (s : PinState) (ops : List PinOp) : PinState :=
  ops.foldl applyPinOp s

/-- The initial pinning state of the component:
`useState<ColumnPinningState>(\x7b\x7d)`. -/
def initPinState : PinState := ⟨[], [], []⟩

/-- The `id` field of an application row record, as JavaScript sees it:
absent, null, a string, or a number. -/
inductive IdField where
  | absent
  | null
  | strVal (s : String)
  | numVal (n : Int)
  deriving DecidableEq

/-- Result of `(row as any).id?.toString()`: `undefined` (none) when the
field is absent or null, otherwise the stringified value. -/
def idFieldToString : IdField → Option String
  | .absent => none
  | .null => none
  | .strVal s => some s
  | .numVal n => some (toString n)

/-- Embeds `getRowId` (src/unnamed/part_002 lines 365-368, part_003 lines
515-518): `(row as any).id?.toString() || index.toString()`.  The `||`
falls through to the index whenever the left side is falsy, i.e. undefined
or the empty string. -/
def getRowId (idf : IdField) (index : Nat) : String :=
  match idFieldToString idf with
  | none => toString index
  | some s => if s = "" then toString index else s

/-- Embeds the `rowNumber` column cell (src/unnamed/part_003 lines 362-383,
part_002 lines 271-290): the displayed number is
`filteredRows.findIndex(r => r.id === row.id) + 1` where `filteredRows` is
`table.getFilteredRowModel().rows`. -/
def rowNumberCell (filteredRows : List RowR) (r : RowR) : Nat :=
  filteredRows.findIdx (fun q => q.id == r.id) + 1

/-- Stable insertion of a row into an already-ordered list: the new element
goes after every element the comparator places not-after it. -/
def insertStable (le : RowR → RowR → Bool) (a : RowR) :
    List RowR → List RowR
  | [] => [a]
  | b :: t => if le b a then b :: insertStable le a t else a :: b :: t

/-- Modelled from the spec: the library's `getSortedRowModel().rows`, a
stable sort of the filtered row model by the comparator of the active sort
keys (sorting runs after filtering; with no sort keys it is the identity).
Realised as a stable insertion sort. -/
def sortedRowModel (le : RowR → RowR → Bool) (filteredRows : List RowR) :
    List RowR :=
  filteredRows.foldr (insertStable le) []

/-- Embeds the auto-fit width clamp (src/unnamed/part_003 lines 1059-1068,
part_004 lines 1375-1384): `Math.min(Math.max(maxWidth, minSize),
maxSize)`, the applied width for a proposed width. -/
def finalWidth (minSize maxSize w : Int) : Int :=
  min (max w minSize) maxSize

/-- An AdvancedFilter `FilterValue` payload
(src/src/components/AdvancedFilter.tsx lines 30-37): at most one of the six
kinds is populated; a date is represented by its day number and a date range
by its two optional day bounds (the range itself may be absent). -/
structure FilterValue where
  text : Option String := none
  number : Option Int := none
  selectVal : Option String := none
  multiselect : Option (List String) := none
  date : Option Nat := none
  daterange : Option (Option Nat × Option Nat) := none
  deriving DecidableEq

/-- The per-value activity test inside `hasActiveFilters`
(src/src/components/AdvancedFilter.tsx lines 338-348): `value.text ||
value.number !== undefined || value.select || (value.multiselect &&
value.multiselect.length > 0) || value.date || (value.daterange &&
(value.daterange.from || value.daterange.to))`.  A JS string is truthy iff
non-empty; a Date object is always truthy. -/
def filterValueActive (v : FilterValue) : Bool :=
  (match v.text with | some s => s != "" | none => false) ||
  v.number.isSome ||
  (match v.selectVal with | some s => s != "" | none => false) ||
  (match v.multiselect with | some l => !l.isEmpty | none => false) ||
  v.date.isSome ||
  (match v.daterange with
   | some (f, t) => f.isSome || t.isSome
   | none => false)

/-- Embeds `hasActiveFilters` (src/src/components/AdvancedFilter.tsx lines
338-348): some panel entry has an active payload. -/
def hasActiveFilters (localValues : List (String × FilterValue)) : Bool :=
  localValues.any (fun p => filterValueActive p.2)

/-- C6: the applied width is the proposed width clamped to the column's
minSize-maxSize interval — below the interval it is minSize, above it is
maxSize, inside it is the proposal unchanged (the request is never
rejected) — and clamping is idempotent. -/
theorem finalWidth_clamps (minS maxS w : Int) (h : minS ≤ maxS) :
    minS ≤ finalWidth minS maxS w ∧ finalWidth minS maxS w ≤ maxS ∧
    (w < minS → finalWidth minS maxS w = minS) ∧
    (maxS < w → finalWidth minS maxS w = maxS) ∧
    (minS ≤ w → w ≤ maxS → finalWidth minS maxS w = w) ∧
    finalWidth minS maxS (finalWidth minS maxS w) = finalWidth minS maxS w := by
  simp only [finalWidth, min_def, max_def]
  split_ifs <;> omega

/-- C6 witness: resizing a column with minSize 100 and maxSize 600 to 30
pixels applies 100 (the spec's concrete scenario 3), and re-applying the
applied width is a fixed point. -/
theorem finalWidth_clamps_witness :
    100 ≤ finalWidth 100 600 30 ∧ finalWidth 100 600 30 ≤ 600 ∧
    ((30 : Int) < 100 → finalWidth 100 600 30 = 100) ∧
    ((600 : Int) < 30 → finalWidth 100 600 30 = 600) ∧
    ((100 : Int) ≤ 30 → (30 : Int) ≤ 600 → finalWidth 100 600 30 = 30) ∧
    finalWidth 100 600 (finalWidth 100 600 30) = finalWidth 100 600 30 :=
  finalWidth_clamps 100 600 30 (by decide)

/-- C7: the clear-filters transition empties the column-filter set, the
global search term and the pending panel values, and leaves row selection,
sort keys, column pinning, column sizing and column visibility exactly as
they were. -/
theorem handleClearFilters_frame (s : TableState) :
    (handleClearFilters s).columnFilters = [] ∧
    (handleClearFilters s).globalFilter = "" ∧
    (handleClearFilters s).filterValues = [] ∧
    (handleClearFilters s).rowSelection = s.rowSelection ∧
    (handleClearFilters s).sorting = s.sorting ∧
    (handleClearFilters s).pinLeft = s.pinLeft ∧
    (handleClearFilters s).pinRight = s.pinRight ∧
    (handleClearFilters s).columnSizing = s.columnSizing ∧
    (handleClearFilters s).columnVisibility = s.columnVisibility := by
  simp [handleClearFilters]

/-- C10: applying filters replaces the whole column-filter set with the set
derived from the current panel values — the result does not depend on the
previously applied filters, and a column whose panel value has been emptied
(inactive under the apply predicate) carries no filter after the apply even
if one was applied before. -/
theorem handleApplyFilters_replaces (s t : TableState) (id : String)
    (hfv : s.filterValues = t.filterValues)
    (hinactive : ∀ v, (id, v) ∈ s.filterValues → jsKept v = false) :
    (handleApplyFilters s).columnFilters = deriveFilters s.filterValues ∧
    (handleApplyFilters s).columnFilters =
      (handleApplyFilters t).columnFilters ∧
    ∀ v, (id, v) ∉ (handleApplyFilters s).columnFilters := by
  refine ⟨rfl, by simp [handleApplyFilters, hfv], ?_⟩
  intro v hv
  have h1 : (id, v) ∈ s.filterValues ∧ jsKept v = true := by
    simpa [handleApplyFilters, deriveFilters, List.mem_filter] using hv
  have h2 := hinactive v h1.1
  simp [h1.2] at h2

/-- C10 witness: with a previously applied name filter whose panel value has
since been emptied, applying keeps no filter at all — the old name filter is
removed, not retained — and any state with the same panel values yields the
same applied set. -/
theorem handleApplyFilters_replaces_witness :
    (handleApplyFilters
        { sorting := [], columnFilters := [("name", .str "jo")],
          columnVisibility := [], pinLeft := [], pinRight := [],
          rowSelection := [], globalFilter := "", columnSizing := [],
          filterValues := [("name", .str "")] }).columnFilters =
      deriveFilters [("name", JSValue.str "")] ∧
    (handleApplyFilters
        { sorting := [], columnFilters := [("name", .str "jo")],
          columnVisibility := [], pinLeft := [], pinRight := [],
          rowSelection := [], globalFilter := "", columnSizing := [],
          filterValues := [("name", .str "")] }).columnFilters =
      (handleApplyFilters
        { sorting := [], columnFilters := [],
          columnVisibility := [], pinLeft := [], pinRight := [],
          rowSelection := [], globalFilter := "", columnSizing := [],
          filterValues := [("name", .str "")] }).columnFilters ∧
    ∀ v, (("name", v) ∉ (handleApplyFilters
        { sorting := [], columnFilters := [("name", .str "jo")],
          columnVisibility := [], pinLeft := [], pinRight := [],
          rowSelection := [], globalFilter := "", columnSizing := [],
          filterValues := [("name", .str "")] }).columnFilters) :=
  handleApplyFilters_replaces _ _ "name" rfl
    (by intro v hv; simp at hv; simp [hv, jsKept, jsTruthy])

/-- C5: evaluating the code at the failing input.  A defined numeric filter
value 0 is dropped by `handleApplyFilters` (JS truthiness treats 0 as
falsy), so it contributes no column filter, while the repository's own
activity predicate `hasActiveFilters` counts the same payload as active
(`value.number !== undefined`); a non-empty text value is kept and an empty
string is dropped, as both functions agree. -/
theorem numberZeroFilter_dropped :
    deriveFilters [("experience", JSValue.num 0)] = [] ∧
    hasActiveFilters [("experience", { number := some 0 })] = true ∧
    deriveFilters [("name", JSValue.str "jo")] =
      [("name", JSValue.str "jo")] ∧
    deriveFilters [("name", JSValue.str "")] = [] := by
  refine ⟨?_, by rfl, ?_, ?_⟩ <;> decide

/-- C9 counterexample: a row record that does have an `id` field — holding
the empty string — still receives the index-derived identity "3", so a row
with an `id` field can get an index identity. -/
theorem getRowId_emptyId_counterexample :
    idFieldToString (IdField.strVal "") = some "" ∧
    getRowId (IdField.strVal "") 3 = "3" ∧ ("3" : String) ≠ "" := by
  refine ⟨rfl, rfl, by decide⟩

/-- C9 amended: the row identity is the string form of the `id` field when
that field is present, non-null and stringifies to a non-empty string; when
the field is absent or null, or when its string form is empty (so JS `||`
falls through), the identity is the position in the original array. -/
theorem getRowId_amended (idf : IdField) (index : Nat) :
    (∀ s, idFieldToString idf = some s → s ≠ "" →
      getRowId idf index = s) ∧
    (idFieldToString idf = none → getRowId idf index = toString index) ∧
    (idFieldToString idf = some "" → getRowId idf index = toString index) := by
  refine ⟨?_, ?_, ?_⟩ <;> intro h
  · intro hs hne
    simp [getRowId, hs, hne]
  · simp [getRowId, h]
  · simp [getRowId, h]

/-- C9 witness: a row whose `id` field is the string "7" gets identity "7"
at any position; a row without the field at position 4 gets "4"; a row with
an empty-string `id` at position 4 gets "4". -/
theorem getRowId_amended_witness :
    getRowId (IdField.strVal "7") 0 = "7" ∧
    getRowId IdField.absent 4 = toString 4 ∧
    getRowId (IdField.strVal "") 4 = toString 4 :=
  ⟨(getRowId_amended (IdField.strVal "7") 0).1 "7" rfl (by decide),
   (getRowId_amended IdField.absent 4).2.1 rfl,
   (getRowId_amended (IdField.strVal "") 4).2.2 rfl⟩

/-- Bridge between the boolean `List.contains` used by the embedded code and
list membership. -/
theorem contains_iff_mem (l : List String) (a : String) :
    l.contains a = true ↔ a ∈ l :=
  List.elem_iff

/-- Membership in the selection record after marking a set of ids
selected. -/
theorem mem_selectIds (sel ids : List String) (i : String) :
    i ∈ selectIds sel ids ↔ i ∈ sel ∨ i ∈ ids := by
  simp only [selectIds, List.mem_append, List.mem_filter, Bool.not_eq_true',
    ← Bool.not_eq_true, contains_iff_mem]
  by_cases h : i ∈ sel <;> simp [h]

/-- Membership in the selection record after deleting a set of ids. -/
theorem mem_deselectIds (sel ids : List String) (i : String) :
    i ∈ deselectIds sel ids ↔ i ∈ sel ∧ i ∉ ids := by
  simp only [deselectIds, List.mem_filter, Bool.not_eq_true',
    ← Bool.not_eq_true, contains_iff_mem]

/-- Membership after the all-rows toggle: union with the filtered ids when
they were not all selected, deletion of exactly the filtered ids when they
were. -/
theorem mem_toggleAllRowsSelected (ids sel : List String) (i : String) :
    i ∈ toggleAllRowsSelected ids sel ↔
      (if getIsAllRowsSelected ids sel then i ∈ sel ∧ i ∉ ids
       else i ∈ sel ∨ i ∈ ids) := by
  unfold toggleAllRowsSelected
  split <;> simp [mem_selectIds, mem_deselectIds]

/-- C1: selecting a row, applying any filter (in particular one that
excludes it), then clearing filters leaves the row selected; moreover at
every state the selected-rows projection contains exactly the data rows
that pass the current filters and whose id is in the selection set — so a
selected row excluded by the current filter stays in the selection set but
is absent from the projection, and reappears in it once filters are
cleared. -/
theorem selectedRows_filter_roundtrip (matchFn : MatchFn) (data : List RowR)
    (s : TableState) (fv : List (String × JSValue)) (x : String)
    (hx : x ∈ s.rowSelection)
    (hEmpty : ∀ r, matchFn [] "" r = true) :
    x ∈ (handleApplyFilters { s with filterValues := fv }).rowSelection ∧
    x ∈ (handleClearFilters
          (handleApplyFilters { s with filterValues := fv })).rowSelection ∧
    (∀ st : TableState, ∀ r : RowR,
      r ∈ selectedRowsData matchFn data st ↔
        r ∈ data ∧ matchFn st.columnFilters st.globalFilter r = true ∧
          r.id ∈ st.rowSelection) ∧
    (∀ r : RowR, matchFn (deriveFilters fv) s.globalFilter r = false →
      r ∉ selectedRowsData matchFn data
            (handleApplyFilters { s with filterValues := fv })) ∧
    (∀ r : RowR, r ∈ data → r.id ∈ s.rowSelection →
      r ∈ selectedRowsData matchFn data
            (handleClearFilters
              (handleApplyFilters { s with filterValues := fv }))) := by
  have hiff : ∀ st : TableState, ∀ r : RowR,
      r ∈ selectedRowsData matchFn data st ↔
        r ∈ data ∧ matchFn st.columnFilters st.globalFilter r = true ∧
          r.id ∈ st.rowSelection := by
    intro st r
    simp only [selectedRowsData, filteredRowModel, List.mem_filter,
      contains_iff_mem]
    tauto
  refine ⟨hx, hx, hiff, ?_, ?_⟩
  · intro r hr hmem
    rw [hiff] at hmem
    have : matchFn (deriveFilters fv) s.globalFilter r = true := by
      simpa [handleApplyFilters] using hmem.2.1
    simp [this] at hr
  · intro r hrd hrs
    rw [hiff]
    refine ⟨hrd, ?_, ?_⟩
    · simpa [handleClearFilters, handleApplyFilters] using hEmpty r
    · simpa [handleClearFilters, handleApplyFilters] using hrs

/-- A concrete match predicate for witnesses: with no active column filter
and an empty search it accepts every row, otherwise only the row with id
"2". -/
def demoMatch : MatchFn := fun cf g r => cf.isEmpty && g == "" || r.id == "2"

/-- A concrete two-row dataset for witnesses. -/
def demoData : List RowR := [⟨"1", 1⟩, ⟨"2", 2⟩]

/-- A concrete component state for witnesses: row "1" selected, no applied
filter yet, and a pending panel value filtering for "2". -/
def demoState : TableState :=
  { sorting := [], columnFilters := [], columnVisibility := [],
    pinLeft := [], pinRight := [], rowSelection := ["1"],
    globalFilter := "", columnSizing := [],
    filterValues := [("id", JSValue.str "2")] }

/-- C1 witness: concrete two-row dataset; row "1" is selected, a filter
matching only id "2" is applied and then cleared; "1" stays selected
throughout, is absent from the projection while the filter is active, and
is back in the projection after clearing. -/
theorem selectedRows_filter_roundtrip_witness :
    "1" ∈ (handleApplyFilters
      { demoState with
          filterValues := [("id", JSValue.str "2")] }).rowSelection ∧
    "1" ∈ (handleClearFilters (handleApplyFilters
      { demoState with
          filterValues := [("id", JSValue.str "2")] })).rowSelection ∧
    (∀ st : TableState, ∀ r : RowR,
      r ∈ selectedRowsData demoMatch demoData st ↔
        r ∈ demoData ∧ demoMatch st.columnFilters st.globalFilter r = true ∧
          r.id ∈ st.rowSelection) ∧
    (∀ r : RowR,
      demoMatch (deriveFilters [("id", JSValue.str "2")])
          demoState.globalFilter r = false →
      r ∉ selectedRowsData demoMatch demoData
            (handleApplyFilters
              { demoState with
                  filterValues := [("id", JSValue.str "2")] })) ∧
    (∀ r : RowR, r ∈ demoData → r.id ∈ demoState.rowSelection →
      r ∈ selectedRowsData demoMatch demoData
            (handleClearFilters (handleApplyFilters
              { demoState with
                  filterValues := [("id", JSValue.str "2")] }))) :=
  selectedRows_filter_roundtrip demoMatch demoData demoState
    [("id", JSValue.str "2")] "1" (by decide)
    (by intro r; simp [demoMatch])

/-- C2: the Select All toggle operates on the currently filtered row set
only: ids outside the filtered view keep their selection status unchanged;
when the filtered rows were not all selected the toggle selects every
filtered row, and when they were all selected it deselects exactly the
filtered rows. -/
theorem toggleAll_filtered_scope (matchFn : MatchFn) (data : List RowR)
    (s : TableState) :
    (∀ i, i ∉ (filteredRowModel matchFn data s).map RowR.id →
      (i ∈ (stToggleAllRowsSelected matchFn data s).rowSelection ↔
        i ∈ s.rowSelection)) ∧
    (getIsAllRowsSelected ((filteredRowModel matchFn data s).map RowR.id)
        s.rowSelection = false →
      ∀ i ∈ (filteredRowModel matchFn data s).map RowR.id,
        i ∈ (stToggleAllRowsSelected matchFn data s).rowSelection) ∧
    (getIsAllRowsSelected ((filteredRowModel matchFn data s).map RowR.id)
        s.rowSelection = true →
      ∀ i ∈ (filteredRowModel matchFn data s).map RowR.id,
        i ∉ (stToggleAllRowsSelected matchFn data s).rowSelection) := by
  refine ⟨?_, ?_, ?_⟩
  · intro i hi
    rw [show (stToggleAllRowsSelected matchFn data s).rowSelection =
        toggleAllRowsSelected
          ((filteredRowModel matchFn data s).map RowR.id)
          s.rowSelection from rfl,
      mem_toggleAllRowsSelected]
    split <;> simp [hi]
  · intro hall i hi
    rw [show (stToggleAllRowsSelected matchFn data s).rowSelection =
        toggleAllRowsSelected
          ((filteredRowModel matchFn data s).map RowR.id)
          s.rowSelection from rfl,
      mem_toggleAllRowsSelected, hall]
    simp [hi]
  · intro hall i hi
    rw [show (stToggleAllRowsSelected matchFn data s).rowSelection =
        toggleAllRowsSelected
          ((filteredRowModel matchFn data s).map RowR.id)
          s.rowSelection from rfl,
      mem_toggleAllRowsSelected, hall]
    simp [hi]

/-- C2 witness: at the concrete state (row "1" selected, no active filter,
so the filtered view is both rows and they are not all selected) the Select
All toggle selects both filtered rows. -/
theorem toggleAll_filtered_scope_witness :
    "2" ∈ (stToggleAllRowsSelected demoMatch demoData demoState).rowSelection ∧
    "1" ∈ (stToggleAllRowsSelected demoMatch demoData demoState).rowSelection :=
  ⟨(toggleAll_filtered_scope demoMatch demoData demoState).2.1 (by decide)
      "2" (by decide),
   (toggleAll_filtered_scope demoMatch demoData demoState).2.1 (by decide)
      "1" (by decide)⟩

/-- C4: after any sequence of pin, unpin, hide and unpin-all operations
starting from the initial component state, the effective column pinning
computed by the state override keeps the forced synthetic columns in place:
with selection enabled the first two left-pinned columns are the selection
and row-number columns in that order, with selection disabled the row-number
column is the first left-pinned column, and with row actions configured the
row-actions column is the first right-pinned column. -/
theorem forcedPinning_invariant (ops : List PinOp) :
    (effectiveLeft true (applyPinOps initPinState ops).userLeft).take 2 =
      ["select", "rowNumber"] ∧
    (effectiveLeft false (applyPinOps initPinState ops).userLeft).take 1 =
      ["rowNumber"] ∧
    (effectiveRight true (applyPinOps initPinState ops).userRight).take 1 =
      ["rowActions"] := by
  refine ⟨?_, ?_, ?_⟩ <;>
    simp [effectiveLeft, effectiveRight, leftPinnedColumns,
      rightPinnedColumns]

/-- Lemma: with pairwise distinct row ids, the filtered-list index found for
a row of the list by its id is the row's position. -/
theorem findIdx_id_get (l : List RowR) (hnd : (l.map RowR.id).Nodup) :
    ∀ (j : Nat) (hj : j < l.length),
      l.findIdx (fun q => q.id == (l.get ⟨j, hj⟩).id) = j := by
  induction l with
  | nil => intro j hj; simp at hj
  | cons a t ih =>
    intro j hj
    have hnd2 : (a.id :: t.map RowR.id).Nodup := by simpa using hnd
    have hnd' := List.nodup_cons.mp hnd2
    cases j with
    | zero => simp [List.findIdx_cons]
    | succ k =>
      have hk : k < t.length := by simpa using Nat.lt_of_succ_lt_succ hj
      have hmem : (t.get ⟨k, hk⟩).id ∈ t.map RowR.id :=
        List.mem_map_of_mem _ (t.get_mem k hk)
      have hne : (a.id == (t.get ⟨k, hk⟩).id) = false := by
        rw [beq_eq_false_iff_ne]
        intro he
        exact hnd'.1 (he ▸ hmem)
      have hget : (a :: t).get ⟨k + 1, hj⟩ = t.get ⟨k, hk⟩ := rfl
      rw [hget, List.findIdx_cons, hne]
      have h4 := ih hnd'.2 k hk
      simp only [List.get_eq_getElem] at h4 ⊢
      simp [h4]

/-- C3 counterexample: two rows with values 1 and 2, filtered list in
dataset order, sorted descending by value — the first row of the rendered
(sorted) sequence is the value-2 row, whose displayed row number is 2, not
1: the displayed numbers do not follow the rendered order under sorting. -/
theorem rowNumber_sorted_counterexample :
    sortedRowModel (fun a b => b.val ≤ a.val) demoData =
      [⟨"2", 2⟩, ⟨"1", 1⟩] ∧
    rowNumberCell demoData ⟨"2", 2⟩ = 2 ∧
    rowNumberCell demoData ⟨"2", 2⟩ ≠ 1 := by
  refine ⟨by decide, by decide, by decide⟩

/-- C3 amended: the displayed row number is 1 plus the row's index in the
*filtered* row model, which keeps the dataset order — so when no sort is
active (the rendered sequence is the filtered list itself) numbers run 1..n
in rendered order, but under an active sort the numbers follow the filtered
pre-sort order rather than the rendered order. -/
theorem rowNumberCell_filtered_order (filtered : List RowR)
    (hnd : (filtered.map RowR.id).Nodup) (j : Nat)
    (hj : j < filtered.length) :
    rowNumberCell filtered (filtered.get ⟨j, hj⟩) = j + 1 := by
  unfold rowNumberCell
  rw [findIdx_id_get filtered hnd j hj]

/-- C3 witness: in the concrete two-row filtered list the second row
displays number 2. -/
theorem rowNumberCell_filtered_order_witness :
    rowNumberCell demoData (demoData.get ⟨1, by decide⟩) = 1 + 1 :=
  rowNumberCell_filtered_order demoData (by decide) 1 (by decide)

/-- C8: for a filtered list with pairwise distinct row ids and any rendered
sequence that is a permutation of it (any sort order), the multiset of
displayed row numbers is exactly 1..n with no gaps or duplicates, and the
set of rows receiving a number is exactly the filtered set. -/
theorem rowNumbers_exactly_one_to_n (filtered rendered : List RowR)
    (hnd : (filtered.map RowR.id).Nodup) (hperm : rendered.Perm filtered) :
    (rendered.map (rowNumberCell filtered)).Perm
      (List.range' 1 filtered.length) ∧
    ∀ r : RowR, r ∈ rendered ↔ r ∈ filtered := by
  constructor
  · have h1 : filtered.map (rowNumberCell filtered) =
        List.range' 1 filtered.length := by
      apply List.ext_getElem
      · simp
      · intro n h1 h2
        have hn : n < filtered.length := by simpa using h1
        rw [List.getElem_map, List.getElem_range']
        have h3 := rowNumberCell_filtered_order filtered hnd n hn
        simp only [List.get_eq_getElem] at h3
        rw [h3]
        omega
    exact h1 ▸ hperm.map (rowNumberCell filtered)
  · intro r
    exact hperm.mem_iff

/-- C8 witness: the descending-sorted rendering of the concrete two-row
filtered list receives exactly the numbers 1 and 2 (as a multiset) and
numbers exactly the filtered rows. -/
theorem rowNumbers_exactly_one_to_n_witness :
    (([⟨"2", 2⟩, ⟨"1", 1⟩] : List RowR).map (rowNumberCell demoData)).Perm
      (List.range' 1 demoData.length) ∧
    ∀ r : RowR, r ∈ ([⟨"2", 2⟩, ⟨"1", 1⟩] : List RowR) ↔ r ∈ demoData :=
  rowNumbers_exactly_one_to_n demoData [⟨"2", 2⟩, ⟨"1", 1⟩]
    (by decide) (by decide)

end DataTableCom
